import Mathlib

/-!
Shallow embedding of the SYSC4130 quiz application (`main.py` and
`shuffle_answers.py`) and proofs about its question store, session engine,
scoring, review and the option-shuffle data transform.

Conventions of the embedding:
* the filesystem seen by the question store is a map from a lecture name
  (file stem) to the parse outcome of that file, `Option FileContent`:
  `none` means the file does not exist, `FileContent.invalid` means
  `json.load` raises `JSONDecodeError`, and `FileContent.valid d` means a
  syntactically valid document whose optional top-level `questions` field
  is `d` (so `FileContent.valid none` is a valid document missing the
  `questions` field);
* the questions directory is `Option (List String)`: `none` when the
  directory is absent, `some stems` the unordered stems of the `*.json`
  files it holds;
* the interactive user (the presentation layer built on `questionary`) is a
  function `Nat → Option Nat` giving, for each 1-based question number, the
  chosen 0-based option index, or `none` for the quit / abort sentinel;
* `random.shuffle` is modelled by quantifying over an arbitrary result list
  constrained by `List.Perm` where a theorem needs it;
* percentages are rational numbers (Python floats only ever divide small
  integers here, so ℚ is the faithful exact model of the value computed).
-/

namespace Quiz

/-- One question entry of a lecture file: the `question` text, the ordered
`options`, the 0-based `correct_answer` index and the optional
`explanation`, as consumed by `main.py`. -/
structure Question where
  question : String
  options : List String
  correct_answer : Nat
  explanation : Option String
  deriving Repr, DecidableEq

/-- Parse outcome of one lecture file: `invalid` when `json.load` raises
`JSONDecodeError`, `valid d` a parsed document whose `questions` field is
`d` (`none` when the field is absent). -/
inductive FileContent where
  | invalid : FileContent
  | valid : Option (List Question) → FileContent
  deriving Repr, DecidableEq

/-- `QuizApp.load_questions` (main.py lines 107-125): returns whether the
load succeeded, and extends the accumulated question list `acc`
(`self.questions`) with `data.get('questions', [])` on success.  A missing
file or invalid JSON prints an error and returns `False`, leaving the
accumulated questions unchanged. -/
def load_questions (fs : String → Option FileContent) (acc : List Question)
    (lecture_name : String) : Bool × List Question :=
  match fs lecture_name with
  | none => (false, acc)
  | some FileContent.invalid => (false, acc)
  | some (FileContent.valid data) => (true, acc ++ data.getD [])

/-- `QuizApp.get_available_lectures` (main.py lines 99-105): the empty list
when the questions directory does not exist, otherwise the sorted stems of
its `*.json` files. -/
def get_available_lectures (dir : Option (List String)) : List String :=
  match dir with
  | none => []
  | some stems => stems.mergeSort (fun a b => decide (a ≤ b))

/-- The questions one source contributes when loaded by `load_questions`:
its `questions` field for a valid document (`[]` when the field is absent),
and `[]` for a missing or unparseable file, which `load_all_lectures`
skips over. -/
def source_questions (fs : String → Option FileContent) (name : String) :
    List Question :=
  match fs name with
  | some (FileContent.valid data) => data.getD []
  | _ => []

/-- `QuizApp.load_all_lectures` (main.py lines 127-138): loads every
available lecture in sorted order into the initially empty question list,
ignoring per-lecture failures, and reports whether any questions were
loaded. -/
def load_all_lectures (dir : Option (List String))
    (fs : String → Option FileContent) : Bool × List Question :=
  let lectures := get_available_lectures dir
  if lectures.isEmpty then (false, [])
  else
    let qs := lectures.foldl (fun acc lecture => (load_questions fs acc lecture).2) []
    (decide (0 < qs.length), qs)

/-- One entry of `self.answered_questions` (main.py lines 231-237): the
question, the user's chosen index, the correct index, the derived
`is_correct` flag and the 1-based question number. -/
structure AnswerRecord where
  question : Question
  user_answer : Nat
  correct_answer : Nat
  is_correct : Bool
  question_num : Nat
  deriving Repr, DecidableEq

/-- The mutable session state of `QuizApp`: running `score`,
`total_questions` and the ordered `answered_questions` log. -/
structure QuizState where
  score : Nat
  total_questions : Nat
  answered_questions : List AnswerRecord
  deriving Repr, DecidableEq

/-- `QuizApp.check_answer` (main.py lines 174-190): compares the user's
index with the correct index, increments the score on equality, and
returns the `is_correct` flag together with the updated state. -/
def check_answer (s : QuizState) (user_answer : Nat) (correct_answer : Nat) :
    Bool × QuizState :=
  let is_correct := user_answer == correct_answer
  if is_correct then (is_correct, { s with score := s.score + 1 })
  else (is_correct, s)

/-- The body of the `run_quiz` loop for one answered question (main.py
lines 225-237): `check_answer` followed by appending the answer record for
question `q` at 1-based position `i`. -/
def submit_answer (s : QuizState) (q : Question) (user_answer : Nat)
    (i : Nat) : QuizState :=
  let r := check_answer s user_answer q.correct_answer
  { r.2 with
    answered_questions := r.2.answered_questions ++
      [{ question := q, user_answer := user_answer,
         correct_answer := q.correct_answer, is_correct := r.1,
         question_num := i }] }

/-- The `for i, question in enumerate(self.questions, 1)` loop of
`QuizApp.run_quiz` (main.py lines 218-239): asks each remaining question in
order; a `none` response (quit sentinel) breaks out of the loop with the
state as it stands, otherwise the answer is checked and recorded and the
loop continues. -/
def run_quiz_loop (user : Nat → Option Nat) :
    List Question → Nat → QuizState → QuizState
  | [], _, s => s
  | q :: rest, i, s =>
    match user i with
    | none => s
    | some ua => run_quiz_loop user rest (i + 1) (submit_answer s q ua i)

/-- The fresh state of `QuizApp.run_quiz` right after
`random.shuffle(self.questions)` set `total_questions` (main.py lines
197-216): zero score and an empty answer log. -/
def initial_state (total : Nat) : QuizState :=
  { score := 0, total_questions := total, answered_questions := [] }

/-- `QuizApp.run_quiz` (main.py lines 197-247) after the shuffle: runs the
question loop over the already-shuffled working set `shuffled` starting at
question number 1.  The shuffle itself is modelled by quantifying over
`shuffled` with a `List.Perm` hypothesis in the theorems. -/
def run_quiz (user : Nat → Option Nat) (shuffled : List Question) : QuizState :=
  run_quiz_loop user shuffled 1 (initial_state shuffled.length)

/-- The performance-feedback branch of `QuizApp.show_final_results`
(main.py lines 260-267), with each message labelled by its tier name from
the specification. -/
def performance_tier (percentage : ℚ) : String :=
  if percentage ≥ 90 then "excellent"
  else if percentage ≥ 75 then "great"
  else if percentage ≥ 60 then "good"
  else "needs_study"

/-- The final report printed by `QuizApp.show_final_results`. -/
structure Report where
  answered_count : Nat
  correct_count : Nat
  incorrect_count : Nat
  percentage : ℚ
  tier : String
  deriving Repr, DecidableEq

/-- `QuizApp.show_final_results` (main.py lines 249-274): the number of
answered questions, the percentage `score / answered * 100` guarded to `0`
when nothing was answered, the performance tier, and the correct and
incorrect counts recomputed from the answer log. -/
def show_final_results (s : QuizState) : Report :=
  let questions_answered := s.answered_questions.length
  let percentage : ℚ :=
    if 0 < questions_answered then (s.score : ℚ) / questions_answered * 100 else 0
  let correct_count := (s.answered_questions.filter (fun r => r.is_correct)).length
  { answered_count := questions_answered
    correct_count := correct_count
    incorrect_count := questions_answered - correct_count
    percentage := percentage
    tier := performance_tier percentage }

/-- `QuizApp.review_incorrect_answers` (main.py lines 288-297): the records
answered incorrectly, in answered order, together with a flag that is
`true` exactly when the function printed the perfect-score message and
returned without a review walkthrough. -/
def review_incorrect_answers (log : List AnswerRecord) :
    List AnswerRecord × Bool :=
  let incorrect := log.filter (fun r => !r.is_correct)
  if incorrect.isEmpty then ([], true) else (incorrect, false)

/-- `shuffle_question_options` (shuffle_answers.py lines 5-21): reads the
correct option's text, replaces `options` with the shuffled list
(`random.shuffle` modelled by the parameter `shuffled_options`), and sets
`correct_answer` to `options.index(text)` on the new list.  `none` models
the `IndexError` of `options[correct_index]` when the index is out of
range, and the `ValueError` of `options.index` when the text is absent
from the new list. -/
def shuffle_question_options (q : Question) (shuffled_options : List String) :
    Option Question :=
  match q.options[q.correct_answer]? with
  | none => none
  | some correct_answer_text =>
    if correct_answer_text ∈ shuffled_options then
      some { q with options := shuffled_options,
                    correct_answer := shuffled_options.indexOf correct_answer_text }
    else none

/-- A sample question used to evaluate the embedding on concrete inputs. -/
def sampleQ1 : Question :=
  { question := "q1", options := ["a", "b", "c"], correct_answer := 1,
    explanation := none }

/-- A second sample question. -/
def sampleQ2 : Question :=
  { question := "q2", options := ["d", "e"], correct_answer := 0,
    explanation := some "why" }

/-- A filesystem holding one lecture file that parses as a valid document
with no top-level `questions` field. -/
def fs_missing_questions : String → Option FileContent := fun name =>
  match name with
  | "lecture1" => some (FileContent.valid none)
  | _ => none

/-- A filesystem with one unparseable lecture file and one valid one. -/
def fs_mixed : String → Option FileContent := fun name =>
  match name with
  | "bad" => some FileContent.invalid
  | "good" => some (FileContent.valid (some [sampleQ1]))
  | _ => none

/-- Unfolding of `review_incorrect_answers`: its review list is the
`is_correct == false` filter of the log and its perfect-score flag is that
filter's emptiness. -/
theorem review_incorrect_eq (log : List AnswerRecord) :
    (review_incorrect_answers log).1 = log.filter (fun r => !r.is_correct) ∧
    (review_incorrect_answers log).2 =
      (log.filter (fun r => !r.is_correct)).isEmpty := by
  unfold review_incorrect_answers
  by_cases h : (log.filter (fun r => !r.is_correct)).isEmpty
  · simp only [h, if_pos]
    exact ⟨(List.isEmpty_iff.mp h).symm, trivial⟩
  · simp [h]

/-- C1 counterexample: the lecture file exists and parses as a valid
document with no top-level `questions` field, yet `load_questions`
succeeds (returns `True`) with zero questions added, instead of failing
with a malformed-data error as the claim requires. -/
theorem load_questions_missing_field_succeeds :
    fs_missing_questions "lecture1" = some (FileContent.valid none) ∧
    load_questions fs_missing_questions [] "lecture1" = (true, []) :=
  ⟨rfl, rfl⟩

/-- C1 (amended): for a source whose file exists, `load_questions` fails
when the content cannot be parsed as valid structured data; a
syntactically valid document loads successfully even when the top-level
`questions` field is missing, in which case zero questions are added. -/
theorem load_questions_spec (fs : String → Option FileContent)
    (acc : List Question) (name : String) :
    (fs name = some FileContent.invalid →
      load_questions fs acc name = (false, acc)) ∧
    (fs name = none → load_questions fs acc name = (false, acc)) ∧
    (fs name = some (FileContent.valid none) →
      load_questions fs acc name = (true, acc)) ∧
    (∀ qs, fs name = some (FileContent.valid (some qs)) →
      load_questions fs acc name = (true, acc ++ qs)) := by
  refine ⟨fun h => ?_, fun h => ?_, fun h => ?_, fun qs h => ?_⟩ <;>
    simp [load_questions, h, Option.getD]

/-- Witness for the amended C1 theorem at a concrete filesystem: the
unparseable source `bad` fails to load. -/
theorem load_questions_spec_witness :
    load_questions fs_mixed [] "bad" = (false, []) :=
  (load_questions_spec fs_mixed [] "bad").1 rfl

/-- C3: the performance tier is selected by inclusive lower bounds
evaluated highest-first — `p ≥ 90` yields `excellent`, otherwise `p ≥ 75`
yields `great`, otherwise `p ≥ 60` yields `good`, otherwise `needs_study`;
the boundary percentages 90, 75 and 60 map to the higher tier. -/
theorem performance_tier_thresholds (p : ℚ) :
    (90 ≤ p → performance_tier p = "excellent") ∧
    (75 ≤ p → p < 90 → performance_tier p = "great") ∧
    (60 ≤ p → p < 75 → performance_tier p = "good") ∧
    (p < 60 → performance_tier p = "needs_study") ∧
    performance_tier 90 = "excellent" ∧
    performance_tier 75 = "great" ∧
    performance_tier 60 = "good" := by
  refine ⟨fun h => ?_, fun h1 h2 => ?_, fun h1 h2 => ?_, fun h => ?_, ?_, ?_, ?_⟩ <;>
    · unfold performance_tier
      split_ifs <;> first | rfl | linarith

/-- Witness for the C3 theorem: a percentage of 80 lies in `[75, 90)` and
is classified `great`. -/
theorem performance_tier_thresholds_witness :
    performance_tier 80 = "great" :=
  (performance_tier_thresholds 80).2.1 (by norm_num) (by norm_num)

/-- C4: one answered question appends exactly one answer record whose
`is_correct` is the index comparison `chosen == correct_answer`, and the
score grows by one exactly when the indices are equal; the outcome is
unchanged under any replacement of the option texts or explanation, so
correctness is decided strictly by index, never by text. -/
theorem submit_answer_by_index (s : QuizState) (q : Question) (ua i : Nat) :
    (submit_answer s q ua i).answered_questions =
      s.answered_questions ++
        [{ question := q, user_answer := ua,
           correct_answer := q.correct_answer,
           is_correct := ua == q.correct_answer, question_num := i }] ∧
    (submit_answer s q ua i).score =
      s.score + (if ua = q.correct_answer then 1 else 0) ∧
    (∀ opts ex,
      (submit_answer s { q with options := opts, explanation := ex } ua i).score =
        (submit_answer s q ua i).score ∧
      ((submit_answer s { q with options := opts, explanation := ex } ua
          i).answered_questions.map (fun r => r.is_correct)) =
        ((submit_answer s q ua i).answered_questions.map
          (fun r => r.is_correct))) := by
  unfold submit_answer check_answer
  by_cases h : ua = q.correct_answer <;> simp [h]

/-- C9: for every finished session, the review list is exactly the answer
records with `is_correct == false` in their original answered order (a
sublist of the log), and the perfect-score message fires exactly when that
filter is empty. -/
theorem review_incorrect_spec (user : Nat → Option Nat)
    (shuffled : List Question) :
    (review_incorrect_answers (run_quiz user shuffled).answered_questions).1 =
      (run_quiz user shuffled).answered_questions.filter
        (fun r => !r.is_correct) ∧
    ((review_incorrect_answers
        (run_quiz user shuffled).answered_questions).1).Sublist
      (run_quiz user shuffled).answered_questions ∧
    (review_incorrect_answers (run_quiz user shuffled).answered_questions).2 =
      ((run_quiz user shuffled).answered_questions.filter
        (fun r => !r.is_correct)).isEmpty := by
  obtain ⟨h1, h2⟩ := review_incorrect_eq (run_quiz user shuffled).answered_questions
  exact ⟨h1, h1 ▸ List.filter_sublist _, h2⟩

/-- `submit_answer` appends exactly the record of the answered question to
the log. -/
theorem submit_answer_answered_eq (s : QuizState) (q : Question) (ua i : Nat) :
    (submit_answer s q ua i).answered_questions =
      s.answered_questions ++
        [{ question := q, user_answer := ua,
           correct_answer := q.correct_answer,
           is_correct := ua == q.correct_answer, question_num := i }] := by
  unfold submit_answer check_answer
  by_cases h : ua = q.correct_answer <;> simp [h]

/-- `submit_answer` adds one to the score exactly when the chosen index
equals the correct index. -/
theorem submit_answer_score_eq (s : QuizState) (q : Question) (ua i : Nat) :
    (submit_answer s q ua i).score =
      s.score + (if ua = q.correct_answer then 1 else 0) := by
  unfold submit_answer check_answer
  by_cases h : ua = q.correct_answer <;> simp [h]

/-- `run_quiz_loop` on an empty remaining list returns the state. -/
theorem run_quiz_loop_nil (user : Nat → Option Nat) (i : Nat) (s : QuizState) :
    run_quiz_loop user [] i s = s := rfl

/-- `run_quiz_loop` stops immediately when the user aborts. -/
theorem run_quiz_loop_cons_none (user : Nat → Option Nat) (q : Question)
    (rest : List Question) (i : Nat) (s : QuizState) (h : user i = none) :
    run_quiz_loop user (q :: rest) i s = s := by
  simp [run_quiz_loop, h]

/-- `run_quiz_loop` records the answered question and continues. -/
theorem run_quiz_loop_cons_some (user : Nat → Option Nat) (q : Question)
    (rest : List Question) (i : Nat) (s : QuizState) (ua : Nat)
    (h : user i = some ua) :
    run_quiz_loop user (q :: rest) i s =
      run_quiz_loop user rest (i + 1) (submit_answer s q ua i) := by
  simp [run_quiz_loop, h]

/-- When the user never aborts, the questions recorded by the loop are the
starting log's questions followed by the whole remaining list, in order. -/
theorem run_quiz_loop_map_question (user : Nat → Option Nat)
    (hall : ∀ i, (user i).isSome) :
    ∀ (qs : List Question) (i : Nat) (s : QuizState),
      (run_quiz_loop user qs i s).answered_questions.map (fun r => r.question) =
        s.answered_questions.map (fun r => r.question) ++ qs := by
  intro qs
  induction qs with
  | nil => intro i s; simp [run_quiz_loop]
  | cons q rest ih =>
    intro i s
    obtain ⟨ua, hua⟩ := Option.isSome_iff_exists.mp (hall i)
    rw [run_quiz_loop_cons_some user q rest i s ua hua, ih,
        submit_answer_answered_eq]
    simp

/-- The loop preserves the invariant that the score equals the number of
correct records in the log. -/
theorem run_quiz_loop_score_invariant (user : Nat → Option Nat) :
    ∀ (qs : List Question) (i : Nat) (s : QuizState),
      s.score = (s.answered_questions.filter (fun r => r.is_correct)).length →
      (run_quiz_loop user qs i s).score =
        ((run_quiz_loop user qs i s).answered_questions.filter
          (fun r => r.is_correct)).length := by
  intro qs
  induction qs with
  | nil => intro i s h; simpa [run_quiz_loop] using h
  | cons q rest ih =>
    intro i s h
    cases hua : user i with
    | none => simpa [run_quiz_loop_cons_none user q rest i s hua] using h
    | some ua =>
      rw [run_quiz_loop_cons_some user q rest i s ua hua]
      apply ih
      rw [submit_answer_score_eq, submit_answer_answered_eq,
          List.filter_append, h]
      by_cases hc : ua = q.correct_answer <;> simp [hc]

/-- After any run of the quiz the score equals the number of correct
records in the answer log. -/
theorem run_quiz_score_eq_correct (user : Nat → Option Nat)
    (shuffled : List Question) :
    (run_quiz user shuffled).score =
      ((run_quiz user shuffled).answered_questions.filter
        (fun r => r.is_correct)).length :=
  run_quiz_loop_score_invariant user shuffled 1 (initial_state shuffled.length) rfl

/-- C10: the running score always equals the number of answer records with
`is_correct = true` — each answered question adds the same amount (one
exactly when correct) to the score and to the correct-record count, every
run ends with the score equal to the correct-record count of its log, and
the `correct_count` the final report recomputes from the log equals the
running score. -/
theorem score_matches_log (user : Nat → Option Nat) (shuffled : List Question)
    (s : QuizState) (q : Question) (ua i : Nat) :
    (run_quiz user shuffled).score =
      ((run_quiz user shuffled).answered_questions.filter
        (fun r => r.is_correct)).length ∧
    (show_final_results (run_quiz user shuffled)).correct_count =
      (run_quiz user shuffled).score ∧
    (submit_answer s q ua i).score =
      s.score + (if ua = q.correct_answer then 1 else 0) ∧
    ((submit_answer s q ua i).answered_questions.filter
        (fun r => r.is_correct)).length =
      (s.answered_questions.filter (fun r => r.is_correct)).length +
        (if ua = q.correct_answer then 1 else 0) := by
  refine ⟨run_quiz_score_eq_correct user shuffled,
    (run_quiz_score_eq_correct user shuffled).symm,
    submit_answer_score_eq s q ua i, ?_⟩
  rw [submit_answer_answered_eq, List.filter_append]
  by_cases hc : ua = q.correct_answer <;> simp [hc]

/-- C2: for every finished session the report's percentage equals
`correct_count / answered_count * 100`, with the `answered_count = 0` case
defined as exactly `0` (the guarded branch, so no division error); in
particular a session aborted before any answer reports `0`. -/
theorem final_percentage_spec (user : Nat → Option Nat)
    (shuffled : List Question) :
    (show_final_results (run_quiz user shuffled)).percentage =
      (if (show_final_results (run_quiz user shuffled)).answered_count = 0
       then 0
       else ((show_final_results (run_quiz user shuffled)).correct_count : ℚ) /
         (show_final_results (run_quiz user shuffled)).answered_count * 100) ∧
    (show_final_results (run_quiz (fun _ => none) shuffled)).percentage = 0 := by
  constructor
  · have hscore := run_quiz_score_eq_correct user shuffled
    show (if 0 < (run_quiz user shuffled).answered_questions.length
          then ((run_quiz user shuffled).score : ℚ) /
            (run_quiz user shuffled).answered_questions.length * 100
          else 0) = _
    by_cases h : (run_quiz user shuffled).answered_questions.length = 0
    · simp [show_final_results, h]
    · rw [if_pos (Nat.pos_of_ne_zero h), if_neg ?_]
      · rw [hscore]; rfl
      · show ¬ (run_quiz user shuffled).answered_questions.length = 0
        exact h
  · cases shuffled <;> rfl

/-- C5: with the shuffle modelled as any permutation of the input computed
once at start, a session in which the user never aborts presents exactly
the fixed shuffled list (never re-shuffled between questions), which is a
permutation of the input — every original question appears exactly once. -/
theorem run_quiz_presents_permutation (user : Nat → Option Nat)
    (qs shuffled : List Question) (hperm : shuffled.Perm qs)
    (hall : ∀ i, (user i).isSome) :
    (run_quiz user shuffled).answered_questions.map (fun r => r.question) =
      shuffled ∧
    ((run_quiz user shuffled).answered_questions.map
      (fun r => r.question)).Perm qs ∧
    (∀ q, ((run_quiz user shuffled).answered_questions.map
        (fun r => r.question)).count q = qs.count q) := by
  have h := run_quiz_loop_map_question user hall shuffled 1
    (initial_state shuffled.length)
  have h' : (run_quiz user shuffled).answered_questions.map
      (fun r => r.question) = shuffled := by
    simpa [run_quiz, initial_state] using h
  refine ⟨h', ?_, ?_⟩
  · rw [h']; exact hperm
  · intro q; rw [h']; exact hperm.count_eq q

/-- Witness for the C5 theorem: presenting the two sample questions in
swapped order and always answering option 0 records a permutation of the
original pair. -/
theorem run_quiz_presents_permutation_witness :
    ((run_quiz (fun _ => some 0)
        [sampleQ2, sampleQ1]).answered_questions.map
      (fun r => r.question)).Perm [sampleQ1, sampleQ2] :=
  (run_quiz_presents_permutation (fun _ => some 0) [sampleQ1, sampleQ2]
      [sampleQ2, sampleQ1] (by decide) (fun _ => rfl)).2.1

/-- When the user answers the first `k` questions and aborts at question
`i + k`, the loop appends records for exactly the first `k` remaining
questions and nothing for the in-flight one. -/
theorem run_quiz_loop_abort (user : Nat → Option Nat) :
    ∀ (k : Nat) (qs : List Question) (i : Nat) (s : QuizState),
      k ≤ qs.length →
      (∀ j, i ≤ j → j < i + k → (user j).isSome) →
      user (i + k) = none →
      (run_quiz_loop user qs i s).answered_questions.map
          (fun r => r.question) =
        s.answered_questions.map (fun r => r.question) ++ qs.take k ∧
      (run_quiz_loop user qs i s).answered_questions.length =
        s.answered_questions.length + k := by
  intro k
  induction k with
  | zero =>
    intro qs i s hlen hsome hnone
    cases qs with
    | nil => simp [run_quiz_loop]
    | cons q rest =>
      rw [run_quiz_loop_cons_none user q rest i s (by simpa using hnone)]
      simp
  | succ k ih =>
    intro qs i s hlen hsome hnone
    cases qs with
    | nil => simp at hlen
    | cons q rest =>
      obtain ⟨ua, hua⟩ :=
        Option.isSome_iff_exists.mp (hsome i le_rfl (by omega))
      rw [run_quiz_loop_cons_some user q rest i s ua hua]
      obtain ⟨h1, h2⟩ := ih rest (i + 1) (submit_answer s q ua i)
        (by simp at hlen; omega)
        (fun j hj1 hj2 => hsome j (by omega) (by omega))
        (by have he : i + 1 + k = i + (k + 1) := by omega
            rw [he]; exact hnone)
      constructor
      · rw [h1, submit_answer_answered_eq]
        simp
      · rw [h2, submit_answer_answered_eq]
        simp [Nat.add_assoc, Nat.add_comm 1 k]

/-- C6: a session aborted after answering `k` of `n` questions holds
exactly `k` answer records — the first `k` shuffled questions, none for
the in-flight unanswered one — and the final report's `answered_count` is
`k`, not `n`. -/
theorem run_quiz_abort_report (user : Nat → Option Nat)
    (shuffled : List Question) (k : Nat) (hk : k < shuffled.length)
    (hans : ∀ j, 1 ≤ j → j ≤ k → (user j).isSome)
    (habort : user (k + 1) = none) :
    (run_quiz user shuffled).answered_questions.length = k ∧
    (run_quiz user shuffled).answered_questions.map (fun r => r.question) =
      shuffled.take k ∧
    (show_final_results (run_quiz user shuffled)).answered_count = k := by
  obtain ⟨h1, h2⟩ := run_quiz_loop_abort user k shuffled 1
    (initial_state shuffled.length) (le_of_lt hk)
    (fun j hj1 hj2 => hans j hj1 (by omega))
    (by rw [Nat.add_comm]; exact habort)
  refine ⟨by simpa [run_quiz, initial_state] using h2,
    by simpa [run_quiz, initial_state] using h1, ?_⟩
  show (run_quiz user shuffled).answered_questions.length = k
  simpa [run_quiz, initial_state] using h2

/-- Witness for the C6 theorem: answering question 1 of the two sample
questions and aborting at question 2 leaves exactly one answer record. -/
theorem run_quiz_abort_report_witness :
    (run_quiz (fun j => if j = 1 then some 0 else none)
        [sampleQ1, sampleQ2]).answered_questions.length = 1 :=
  (run_quiz_abort_report (fun j => if j = 1 then some 0 else none)
      [sampleQ1, sampleQ2] 1 (by decide)
      (fun j hj1 hj2 => by
        have hj : j = 1 := le_antisymm hj2 hj1
        subst hj; rfl)
      rfl).1

/-- C7: for every question whose `correct_answer` index is in range,
replacing its options by any permutation through the option-shuffle
transform keeps the question-answer truth mapping intact — the text at the
new `correct_answer` index equals the text at the old `correct_answer`
index before the transform. -/
theorem shuffle_preserves_correct_text (q : Question) (opts : List String)
    (hperm : opts.Perm q.options)
    (hidx : q.correct_answer < q.options.length) :
    ∃ q', shuffle_question_options q opts = some q' ∧
      q'.options = opts ∧
      q'.correct_answer < q'.options.length ∧
      q'.options[q'.correct_answer]? = q.options[q.correct_answer]? := by
  have hget : q.options[q.correct_answer]? =
      some (q.options[q.correct_answer]) := List.getElem?_eq_getElem hidx
  have hmem : q.options[q.correct_answer] ∈ opts :=
    hperm.mem_iff.mpr (List.getElem_mem hidx)
  have hlt : opts.indexOf (q.options[q.correct_answer]) < opts.length :=
    List.indexOf_lt_length.mpr hmem
  refine ⟨({ q with
             options := opts
             correct_answer := opts.indexOf (q.options[q.correct_answer]) }),
    ?_, rfl, hlt, ?_⟩
  · unfold shuffle_question_options
    rw [hget]
    simp [hmem]
  · rw [hget]
    show opts[opts.indexOf (q.options[q.correct_answer])]? = _
    rw [List.getElem?_eq_getElem hlt, List.getElem_indexOf hlt]

/-- Witness for the C7 theorem: reversing the options of the first sample
question keeps `"b"` at the (relocated) correct index. -/
theorem shuffle_preserves_correct_text_witness :
    ∃ q', shuffle_question_options sampleQ1 ["c", "b", "a"] = some q' ∧
      q'.options = ["c", "b", "a"] ∧
      q'.correct_answer < q'.options.length ∧
      q'.options[q'.correct_answer]? =
        sampleQ1.options[sampleQ1.correct_answer]? :=
  shuffle_preserves_correct_text sampleQ1 ["c", "b", "a"]
    (by decide) (by decide)

/-- `load_questions` extends the accumulated questions by exactly what the
source contributes: its `questions` field when it loads, nothing when it
fails. -/
theorem load_questions_snd (fs : String → Option FileContent)
    (acc : List Question) (name : String) :
    (load_questions fs acc name).2 = acc ++ source_questions fs name := by
  unfold load_questions source_questions
  cases h : fs name with
  | none => simp
  | some c => cases c <;> simp

/-- Folding `load_questions` over a list of sources concatenates each
source's contribution in list order onto the accumulator. -/
theorem load_all_foldl (fs : String → Option FileContent) :
    ∀ (names : List String) (acc : List Question),
      names.foldl (fun acc name => (load_questions fs acc name).2) acc =
        acc ++ names.flatMap (source_questions fs) := by
  intro names
  induction names with
  | nil => intro acc; simp
  | cons n rest ih =>
    intro acc
    rw [List.foldl_cons, ih, load_questions_snd]
    simp

/-- The questions loaded by `load_all_lectures` are the concatenation, in
available-lecture order, of each source's contribution. -/
theorem load_all_lectures_eq (dir : Option (List String))
    (fs : String → Option FileContent) :
    (load_all_lectures dir fs).2 =
      (get_available_lectures dir).flatMap (source_questions fs) := by
  unfold load_all_lectures
  by_cases h : (get_available_lectures dir).isEmpty
  · simp [h, List.isEmpty_iff.mp h]
  · simp only [h, Bool.false_eq_true, if_false]
    simpa using load_all_foldl fs (get_available_lectures dir) []

/-- C8: `load_all_lectures` concatenates, in sorted source-name order, the
questions of every available source; a source that fails to load
contributes nothing (it is skipped and the fold continues with the rest);
an absent questions directory yields an empty available list and an empty
load; and the available list is a sorted permutation of the directory's
stems. -/
theorem load_all_spec (dir : Option (List String))
    (fs : String → Option FileContent) (stems : List String)
    (name : String) (acc : List Question) :
    (load_all_lectures dir fs).2 =
      (get_available_lectures dir).flatMap (source_questions fs) ∧
    (load_questions fs acc name).2 = acc ++ source_questions fs name ∧
    get_available_lectures none = [] ∧
    load_all_lectures none fs = (false, []) ∧
    (get_available_lectures (some stems)).Perm stems ∧
    (get_available_lectures (some stems)).Pairwise (· ≤ ·) := by
  refine ⟨load_all_lectures_eq dir fs, load_questions_snd fs acc name,
    rfl, rfl, List.mergeSort_perm stems _, ?_⟩
  have h := @List.sorted_mergeSort String (fun a b => decide (a ≤ b))
    (fun a b c hab hbc => by
      simp only [decide_eq_true_eq] at *
      exact le_trans hab hbc)
    (fun a b => by rcases le_total a b with h | h <;> simp [h])
    stems
  exact h.imp (fun hab => of_decide_eq_true hab)

end Quiz
